import Mathlib

/-!
Verification of the optimistic-update / undo reconciliation core of the
sprint-board repository (the `useTasks` hook in `src/hooks/useTasks.ts`,
with the data types from `src/lib/types.ts` and the transport surface of
`src/lib/api.ts`).

The hook is a single-threaded state machine: every operation synchronously
applies an optimistic change, issues one remote call, and on settlement
commits or rolls back.  We embed it shallowly: the React state cell becomes
an explicit `HookState`, `setX` calls become functional updates, and the
remote call's settlement is passed in as an `ApiResponse` parameter (the
operation's behaviour is a pure function of the pre-state, its arguments and
the settled response).  The single `undoTimeoutRef` timer is modelled as an
optional pending callback `(captured task id, scheduled fire time)`;
`fireUndoExpiry` runs that callback.  Remote calls issued by an operation
are collected in the `calls` field of its result, and a thrown JS `Error`
becomes `Except.error` with the same message.
-/

namespace SprintBoard

/-- `TaskStatus` from `types.ts`: `"todo" | "in-progress" | "done"`. -/
inductive TaskStatus where
  | todo
  | inProgress
  | done
deriving DecidableEq

/-- `TaskPriority` from `types.ts`: `"low" | "medium" | "high"`. -/
inductive TaskPriority where
  | low
  | medium
  | high
deriving DecidableEq

/-- The `Task` record from `types.ts` (core fields; the optional `aiData` /
`scheduling` blobs are consumed only by the excluded AI panels and are
carried by no operation of the reconciliation core). -/
structure Task where
  id : String
  userId : String
  title : String
  description : String
  status : TaskStatus
  priority : TaskPriority
  createdAt : String
  updatedAt : String
deriving DecidableEq

/-- `CreateTaskInput` from `types.ts`. -/
structure CreateTaskInput where
  title : String
  description : String
  priority : TaskPriority
deriving DecidableEq

/-- `UpdateTaskInput` from `types.ts`: every field optional (a patch). -/
structure UpdateTaskInput where
  title : Option String := none
  description : Option String := none
  status : Option TaskStatus := none
  priority : Option TaskPriority := none
deriving DecidableEq

/-- `ApiError` from `types.ts` (the free-form `details` map is dropped). -/
structure ApiError where
  message : String
  code : Option String := none
deriving DecidableEq

/-- `ApiResponse<T>` from `types.ts`: `{data?, error?, success}`. -/
structure ApiResponse (T : Type) where
  data : Option T := none
  error : Option ApiError := none
  success : Bool
deriving DecidableEq

/-- The `type` tag of an `OptimisticUpdate`. -/
inductive UpdateType where
  | create
  | update
  | delete
deriving DecidableEq

/-- `OptimisticUpdate` from `types.ts` (the optional `rollbackFn` is never
set by the hook and is dropped). -/
structure OptimisticUpdate where
  id : String
  type : UpdateType
  previousState : Option Task
  newState : Option Task
  timestamp : Nat
deriving DecidableEq

/-- `UndoableAction` from `types.ts`. -/
structure UndoableAction where
  taskId : String
  previousState : Task
  newState : Task
  timestamp : Nat
  expiresAt : Nat
deriving DecidableEq

/-- The state held by `useTasks`: the `tasks`, `loading`, `error`,
`optimisticUpdates` and `undoStack` React state cells, plus
`undoTimeoutRef` modelled as the pending expiry callback's captured task id
and scheduled fire time (`none` when no callback is pending). -/
structure HookState where
  tasks : List Task
  loading : Bool
  error : Option ApiError
  optimisticUpdates : List OptimisticUpdate
  undoStack : List UndoableAction
  undoTimeout : Option (String × Nat)
deriving DecidableEq

/-- A remote call issued through `api.task`. -/
inductive RemoteCall where
  | getAllCall
  | createCall (input : CreateTaskInput)
  | updateCall (id : String) (input : UpdateTaskInput)
  | deleteCall (id : String)
deriving DecidableEq

instance {e a : Type} [DecidableEq e] [DecidableEq a] : DecidableEq (Except e a) := fun x y =>
  match x, y with
  | Except.ok u, Except.ok v =>
    if h : u = v then isTrue (by rw [h]) else isFalse (fun hh => by cases hh; exact h rfl)
  | Except.error u, Except.error v =>
    if h : u = v then isTrue (by rw [h]) else isFalse (fun hh => by cases hh; exact h rfl)
  | Except.ok _, Except.error _ => isFalse (fun hh => by cases hh)
  | Except.error _, Except.ok _ => isFalse (fun hh => by cases hh)

/-- Result of running one hook operation to settlement: the post
`HookState`, the JS return/throw behaviour, and the remote calls issued. -/
structure OpResult where
  state : HookState
  outcome : Except String Unit
  calls : List RemoteCall
deriving DecidableEq

/-- `tasks.find((t) => t.id === id)`. -/
def findTask (l : List Task) (i : String) : Option Task :=
  l.find? fun t => t.id == i

/-- `prev.map((task) => (task.id === i ? u : task))`. -/
def replaceById (l : List Task) (i : String) (u : Task) : List Task :=
  l.map fun t => if t.id == i then u else t

/-- `prev.filter((task) => task.id !== i)`. -/
def removeById (l : List Task) (i : String) : List Task :=
  l.filter fun t => !(t.id == i)

/-- `prev.filter((update) => update.id !== i)` on the optimistic list. -/
def removeOptById (l : List OptimisticUpdate) (i : String) : List OptimisticUpdate :=
  l.filter fun u => !(u.id == i)

/-- JS `result.error?.message || fallback` (an empty message is falsy). -/
def errMessage (e : Option ApiError) (fallback : String) : String :=
  match e with
  | some err => if err.message = "" then fallback else err.message
  | none => fallback

/-- The temporary id synthesized by `createTask`: `` `temp-${Date.now()}` ``. -/
def tempId (nowMs : Nat) : String :=
  "temp-" ++ toString nowMs

/-- `{...originalTask, ...input, updatedAt: isoNow}` for a patch whose
absent fields leave the original value in place. -/
def applyPatch (t : Task) (input : UpdateTaskInput) (isoNow : String) : Task :=
  { t with
    title := input.title.getD t.title
    description := input.description.getD t.description
    status := input.status.getD t.status
    priority := input.priority.getD t.priority
    updatedAt := isoNow }

/-- `loadTasks` from `useTasks.ts`: set loading, clear the error, await
`api.task.getAllTasks()`; on success replace the whole collection with
`result.data || []`, on failure record `result.error || null`. -/
def loadTasks (s : HookState) (result : ApiResponse (List Task)) : OpResult :=
  let s0 : HookState := { s with loading := true, error := none }
  if result.success then
    { state := { s0 with tasks := result.data.getD [], loading := false }
      outcome := Except.ok ()
      calls := [RemoteCall.getAllCall] }
  else
    { state := { s0 with error := result.error, loading := false }
      outcome := Except.ok ()
      calls := [RemoteCall.getAllCall] }

/-- The optimistic temporary task synthesized by `createTask`:
`{id: temp-now, userId, ...input, status: "todo", createdAt/updatedAt: now}`. -/
def mkTempTask (input : CreateTaskInput) (userId : String)
    (nowMs : Nat) (isoNow : String) : Task :=
  { id := tempId nowMs
    userId := userId
    title := input.title
    description := input.description
    status := TaskStatus.todo
    priority := input.priority
    createdAt := isoNow
    updatedAt := isoNow }

/-- `createTask` from `useTasks.ts`: synthesize the temporary task, append
it and an `OptimisticUpdate{type: create}`, await the remote create; on
`result.success && result.data` replace the temporary task by the server
task and drop the optimistic record, otherwise remove the temporary task,
drop the record and throw. -/
def createTask (s : HookState) (input : CreateTaskInput) (userId : String)
    (nowMs : Nat) (isoNow : String) (result : ApiResponse Task) : OpResult :=
  let tempTask : Task := mkTempTask input userId nowMs isoNow
  let s1 : HookState :=
    { s with
      tasks := s.tasks ++ [tempTask]
      optimisticUpdates := s.optimisticUpdates ++
        [{ id := tempTask.id, type := UpdateType.create, previousState := none,
           newState := some tempTask, timestamp := nowMs }] }
  match result.success, result.data with
  | true, some d =>
    { state := { s1 with
        tasks := replaceById s1.tasks tempTask.id d
        optimisticUpdates := removeOptById s1.optimisticUpdates tempTask.id }
      outcome := Except.ok ()
      calls := [RemoteCall.createCall input] }
  | _, _ =>
    { state := { s1 with
        tasks := removeById s1.tasks tempTask.id
        optimisticUpdates := removeOptById s1.optimisticUpdates tempTask.id }
      outcome := Except.error (errMessage result.error "Failed to create task")
      calls := [RemoteCall.createCall input] }

/-- `updateTask` from `useTasks.ts`: throw "Task not found" if the id is
absent; otherwise apply the patch optimistically, push an
`OptimisticUpdate{type: update}`, await the remote update; on success only
the optimistic record is dropped (the server reply is ignored), on failure
the exact snapshot is restored, the record dropped and the error thrown. -/
def updateTask (s : HookState) (id : String) (input : UpdateTaskInput)
    (nowMs : Nat) (isoNow : String) (result : ApiResponse Task) : OpResult :=
  match findTask s.tasks id with
  | none => { state := s, outcome := Except.error "Task not found", calls := [] }
  | some originalTask =>
    let updatedTask := applyPatch originalTask input isoNow
    let s1 : HookState :=
      { s with
        tasks := replaceById s.tasks id updatedTask
        optimisticUpdates := s.optimisticUpdates ++
          [{ id := id, type := UpdateType.update, previousState := some originalTask,
             newState := some updatedTask, timestamp := nowMs }] }
    if result.success then
      { state := { s1 with optimisticUpdates := removeOptById s1.optimisticUpdates id }
        outcome := Except.ok ()
        calls := [RemoteCall.updateCall id input] }
    else
      { state := { s1 with
          tasks := replaceById s1.tasks id originalTask
          optimisticUpdates := removeOptById s1.optimisticUpdates id }
        outcome := Except.error (errMessage result.error "Failed to update task")
        calls := [RemoteCall.updateCall id input] }

/-- `deleteTask` from `useTasks.ts`: throw "Task not found" if the id is
absent; otherwise remove the task optimistically, push an
`OptimisticUpdate{type: delete}`, await the remote delete; on success drop
the record, on failure re-append the snapshot, drop the record and throw. -/
def deleteTask (s : HookState) (id : String) (nowMs : Nat)
    (result : ApiResponse Unit) : OpResult :=
  match findTask s.tasks id with
  | none => { state := s, outcome := Except.error "Task not found", calls := [] }
  | some originalTask =>
    let s1 : HookState :=
      { s with
        tasks := removeById s.tasks id
        optimisticUpdates := s.optimisticUpdates ++
          [{ id := id, type := UpdateType.delete, previousState := some originalTask,
             newState := none, timestamp := nowMs }] }
    if result.success then
      { state := { s1 with optimisticUpdates := removeOptById s1.optimisticUpdates id }
        outcome := Except.ok ()
        calls := [RemoteCall.deleteCall id] }
    else
      { state := { s1 with
          tasks := s1.tasks ++ [originalTask]
          optimisticUpdates := removeOptById s1.optimisticUpdates id }
        outcome := Except.error (errMessage result.error "Failed to delete task")
        calls := [RemoteCall.deleteCall id] }

/-- The `UndoableAction` pushed by `moveTask` for a task `t` moved to
`status` at time `nowMs`/`isoNow`. -/
def mkMoveAction (t : Task) (id : String) (status : TaskStatus)
    (nowMs : Nat) (isoNow : String) : UndoableAction :=
  { taskId := id
    previousState := t
    newState := { t with status := status, updatedAt := isoNow }
    timestamp := nowMs
    expiresAt := nowMs + 5000 }

/-- `moveTask` from `useTasks.ts`: silently return when the id is absent
or the status is unchanged; otherwise push an `UndoableAction` expiring at
`now + 5000`, clear any previously scheduled expiry timer and schedule a
fresh one whose closure captures this move's task id, then delegate to
`updateTask` with a status-only patch. -/
def moveTask (s : HookState) (id : String) (status : TaskStatus)
    (nowMs : Nat) (isoNow : String) (result : ApiResponse Task) : OpResult :=
  match findTask s.tasks id with
  | none => { state := s, outcome := Except.ok (), calls := [] }
  | some originalTask =>
    if originalTask.status == status then
      { state := s, outcome := Except.ok (), calls := [] }
    else
      let undoAction : UndoableAction := mkMoveAction originalTask id status nowMs isoNow
      let s1 : HookState :=
        { s with
          undoStack := s.undoStack ++ [undoAction]
          undoTimeout := some (id, nowMs + 5000) }
      updateTask s1 id { status := some status } nowMs isoNow result

/-- The deferred expiry callback scheduled by `moveTask`: when a callback
is pending, firing it prunes from the undo stack exactly the actions whose
`taskId` equals the id captured at scheduling time, and touches nothing
else; after firing no callback is pending. -/
def fireUndoExpiry (s : HookState) : HookState :=
  match s.undoTimeout with
  | none => s
  | some (id, _) =>
    { s with
      undoStack := s.undoStack.filter fun a => !(a.taskId == id)
      undoTimeout := none }

/-- `undoLastAction` from `useTasks.ts`: return silently when the stack is
empty; otherwise pop the last action, clear the pending expiry timer,
replace the task by the stored `previousState`, and fire-and-forget a
status-only corrective remote update (`corrResult` is the settlement of
that corrective call — the code never inspects it). -/
def undoLastAction (s : HookState) (corrResult : ApiResponse Task) : OpResult :=
  match s.undoStack.getLast? with
  | none => { state := s, outcome := Except.ok (), calls := [] }
  | some lastAction =>
    { state := { s with
        undoStack := s.undoStack.dropLast
        undoTimeout := none
        tasks := replaceById s.tasks lastAction.taskId lastAction.previousState }
      outcome := Except.ok ()
      calls := [RemoteCall.updateCall lastAction.taskId
        { status := some lastAction.previousState.status }] }

/-- `canUndo` from `useTasks.ts`: `undoStack.length > 0`. -/
def canUndo (s : HookState) : Bool :=
  decide (s.undoStack.length > 0)

/-- No task in `l` carries the id `i`. -/
def idFresh (l : List Task) (i : String) : Prop :=
  ∀ t ∈ l, t.id ≠ i

/-- The task store keeps pairwise-distinct task ids. -/
def NodupIds (l : List Task) : Prop :=
  (l.map Task.id).Nodup

theorem findTask_nil (i : String) : findTask [] i = none := rfl

theorem findTask_cons (a : Task) (as : List Task) (i : String) :
    findTask (a :: as) i = if a.id = i then some a else findTask as i := by
  by_cases h : a.id = i
  · simp [findTask, List.find?_cons, h]
  · simp [findTask, List.find?_cons, h]

theorem findTask_some_id {l : List Task} {i : String} {t : Task}
    (h : findTask l i = some t) : t.id = i := by
  simp only [findTask] at h
  have h' := List.find?_some h
  simpa using h'

theorem findTask_eq_none_iff {l : List Task} {i : String} :
    findTask l i = none ↔ idFresh l i := by
  simp [findTask, List.find?_eq_none, idFresh]

theorem findTask_append (l l' : List Task) (i : String) :
    findTask (l ++ l') i = (findTask l i).orElse fun _ => findTask l' i := by
  induction l with
  | nil => simp [findTask]
  | cons a as ih =>
    by_cases h : a.id = i
    · simp [List.cons_append, findTask_cons, h]
    · simpa [List.cons_append, findTask_cons, h] using ih

theorem replaceById_cons (a : Task) (as : List Task) (i : String) (u : Task) :
    replaceById (a :: as) i u =
      (if a.id = i then u else a) :: replaceById as i u := by
  by_cases h : a.id = i <;> simp [replaceById, h]

theorem removeById_cons (a : Task) (as : List Task) (i : String) :
    removeById (a :: as) i =
      if a.id = i then removeById as i else a :: removeById as i := by
  by_cases h : a.id = i <;> simp [removeById, List.filter_cons, h]

theorem findTask_replace_self {l : List Task} {i : String} {t : Task} (u : Task)
    (hu : u.id = i) (h : findTask l i = some t) :
    findTask (replaceById l i u) i = some u := by
  induction l with
  | nil => simp [findTask] at h
  | cons a as ih =>
    rw [replaceById_cons]
    by_cases ha : a.id = i
    · simp [ha, findTask_cons, hu]
    · rw [findTask_cons] at h
      simp only [ha, if_false] at h ⊢
      rw [findTask_cons]
      simp only [ha, if_false]
      exact ih h

theorem findTask_replace_ne {l : List Task} {i j : String} (u : Task)
    (hu : u.id = i) (hij : j ≠ i) :
    findTask (replaceById l i u) j = findTask l j := by
  have huj : u.id ≠ j := fun hh => hij (hh.symm.trans hu)
  induction l with
  | nil => rfl
  | cons a as ih =>
    rw [replaceById_cons]
    by_cases ha : a.id = i
    · have hja : a.id ≠ j := fun hh => hij (hh.symm.trans ha)
      rw [if_pos ha, findTask_cons, if_neg huj, findTask_cons, if_neg hja, ih]
    · rw [if_neg ha, findTask_cons, findTask_cons]
      by_cases hj : a.id = j
      · rw [if_pos hj, if_pos hj]
      · rw [if_neg hj, if_neg hj, ih]

theorem findTask_remove_self (l : List Task) (i : String) :
    findTask (removeById l i) i = none := by
  induction l with
  | nil => rfl
  | cons a as ih =>
    rw [removeById_cons]
    by_cases ha : a.id = i
    · simpa [ha] using ih
    · simpa [ha, findTask_cons] using ih

theorem findTask_remove_ne {i j : String} (l : List Task) (hij : j ≠ i) :
    findTask (removeById l i) j = findTask l j := by
  induction l with
  | nil => rfl
  | cons a as ih =>
    rw [removeById_cons]
    by_cases ha : a.id = i
    · have hja : a.id ≠ j := fun hh => hij (hh.symm.trans ha)
      rw [if_pos ha, ih, findTask_cons, if_neg hja]
    · rw [if_neg ha, findTask_cons, findTask_cons]
      by_cases hj : a.id = j
      · rw [if_pos hj, if_pos hj]
      · rw [if_neg hj, if_neg hj, ih]

theorem replaceById_fresh {l : List Task} {i : String} (u : Task)
    (h : idFresh l i) : replaceById l i u = l := by
  induction l with
  | nil => rfl
  | cons a as ih =>
    rw [replaceById_cons]
    have ha : ¬ a.id = i := h a (List.mem_cons_self a as)
    simp only [ha, if_false]
    rw [ih fun t ht => h t (List.mem_cons_of_mem a ht)]

theorem removeById_fresh {l : List Task} {i : String}
    (h : idFresh l i) : removeById l i = l := by
  induction l with
  | nil => rfl
  | cons a as ih =>
    rw [removeById_cons]
    have ha : ¬ a.id = i := h a (List.mem_cons_self a as)
    simp only [ha, if_false]
    rw [ih fun t ht => h t (List.mem_cons_of_mem a ht)]

theorem replaceById_append (l l' : List Task) (i : String) (u : Task) :
    replaceById (l ++ l') i u = replaceById l i u ++ replaceById l' i u := by
  simp [replaceById]

theorem removeById_append (l l' : List Task) (i : String) :
    removeById (l ++ l') i = removeById l i ++ removeById l' i := by
  simp [removeById]

theorem replaceById_map_id {i : String} (l : List Task) (u : Task)
    (hu : u.id = i) : (replaceById l i u).map Task.id = l.map Task.id := by
  induction l with
  | nil => rfl
  | cons a as ih =>
    rw [replaceById_cons]
    by_cases ha : a.id = i
    · simp [ha, hu, ih]
    · simp [ha, ih]

theorem removeById_sublist (l : List Task) (i : String) :
    (removeById l i).Sublist l :=
  List.filter_sublist l

theorem idFresh_removeById (l : List Task) (i : String) :
    idFresh (removeById l i) i := by
  intro t ht
  have := List.of_mem_filter ht
  simpa using this

theorem nodupIds_replace {l : List Task} {i : String} (u : Task)
    (hu : u.id = i) (h : NodupIds l) : NodupIds (replaceById l i u) := by
  unfold NodupIds
  rw [replaceById_map_id l u hu]
  exact h

theorem nodupIds_remove {l : List Task} (i : String)
    (h : NodupIds l) : NodupIds (removeById l i) :=
  List.Nodup.sublist (List.Sublist.map Task.id (removeById_sublist l i)) h

theorem nodupIds_append_fresh {l : List Task} {x : Task}
    (h : NodupIds l) (hx : idFresh l x.id) : NodupIds (l ++ [x]) := by
  unfold NodupIds
  rw [List.map_append]
  refine List.Nodup.append h (List.nodup_singleton x.id) ?_
  intro a ha hb
  simp only [List.map_cons, List.map_nil, List.mem_singleton] at hb
  rcases List.mem_map.mp ha with ⟨t, ht, hta⟩
  exact hx t ht (hta.trans hb)

theorem nodupIds_remove_append {l : List Task} {i : String} {x : Task}
    (hx : x.id = i) (h : NodupIds l) : NodupIds (removeById l i ++ [x]) := by
  refine nodupIds_append_fresh (nodupIds_remove i h) ?_
  rw [hx]
  exact idFresh_removeById l i

theorem removeOptById_no_id (l : List OptimisticUpdate) (i : String) :
    ∀ u ∈ removeOptById l i, u.id ≠ i := by
  intro u hu
  have := List.of_mem_filter hu
  simpa using this

theorem applyPatch_id (t : Task) (input : UpdateTaskInput) (isoNow : String) :
    (applyPatch t input isoNow).id = t.id := rfl

theorem fireUndoExpiry_tasks (s : HookState) :
    (fireUndoExpiry s).tasks = s.tasks := by
  unfold fireUndoExpiry
  rcases s.undoTimeout with _ | ⟨i, n⟩ <;> rfl

theorem fireUndoExpiry_timeout (s : HookState) :
    (fireUndoExpiry s).undoTimeout = none ∨ s.undoTimeout = none := by
  unfold fireUndoExpiry
  rcases s.undoTimeout with _ | ⟨i, n⟩
  · exact Or.inr rfl
  · exact Or.inl rfl

/-- A sample task with id "1" in status `todo` (used to instantiate
hypotheses of the claim theorems at concrete inputs). -/
def sampleTask1 : Task :=
  { id := "1", userId := "1", title := "Write tests", description := "d",
    status := TaskStatus.todo, priority := TaskPriority.medium,
    createdAt := "T0", updatedAt := "T0" }

/-- A second sample task with id "2" in status `done`. -/
def sampleTask2 : Task :=
  { id := "2", userId := "1", title := "Ship", description := "e",
    status := TaskStatus.done, priority := TaskPriority.high,
    createdAt := "T0", updatedAt := "T0" }

/-- A third sample task with id "3", as a server reply to a create. -/
def sampleTask3 : Task :=
  { id := "3", userId := "1", title := "n", description := "nd",
    status := TaskStatus.todo, priority := TaskPriority.low,
    createdAt := "T1", updatedAt := "T1" }

/-- A quiescent hook state holding the two sample tasks. -/
def sampleState : HookState :=
  { tasks := [sampleTask1, sampleTask2], loading := false, error := none,
    optimisticUpdates := [], undoStack := [], undoTimeout := none }

/-- `sampleTask1` after a move to `in-progress` at time "T1". -/
def movedTask1 : Task :=
  { sampleTask1 with status := TaskStatus.inProgress, updatedAt := "T1" }

/-- The undo record pushed by that move. -/
def sampleUndoAction : UndoableAction :=
  { taskId := "1", previousState := sampleTask1, newState := movedTask1,
    timestamp := 0, expiresAt := 5000 }

/-- The hook state right after that move settled successfully. -/
def sampleMovedState : HookState :=
  { tasks := [movedTask1, sampleTask2], loading := false, error := none,
    optimisticUpdates := [], undoStack := [sampleUndoAction],
    undoTimeout := some ("1", 5000) }

/-- C7: `canUndo` is true iff the undo stack is non-empty, and invoking
`undoLastAction` while `canUndo` is false leaves the whole hook state
(tasks, undo stack, timer, everything) unchanged and issues no remote
call. -/
theorem c7_canUndo_iff_and_undo_noop (s : HookState) (r : ApiResponse Task) :
    (canUndo s = true ↔ s.undoStack ≠ []) ∧
    (canUndo s = false →
      undoLastAction s r = { state := s, outcome := Except.ok (), calls := [] }) := by
  constructor
  · constructor
    · intro h
      have : 0 < s.undoStack.length := by simpa [canUndo] using h
      exact List.ne_nil_of_length_pos this
    · intro h
      have : 0 < s.undoStack.length := List.length_pos.mpr h
      simpa [canUndo] using this
  · intro h
    have hlen : ¬ 0 < s.undoStack.length := by simpa [canUndo] using h
    have hnil : s.undoStack = [] := by
      cases hl : s.undoStack with
      | nil => rfl
      | cons a as => rw [hl] at hlen; simp at hlen
    simp [undoLastAction, hnil]

/-- C7 witness: on the quiescent sample state `canUndo` is false and undo
is a complete no-op. -/
theorem c7_witness :
    canUndo sampleState = false ∧
    undoLastAction sampleState { success := true } =
      { state := sampleState, outcome := Except.ok (), calls := [] } :=
  ⟨by decide,
   (c7_canUndo_iff_and_undo_noop sampleState { success := true }).2 (by decide)⟩

/-- C8: a successful `loadTasks` replaces the whole collection with the
freshly fetched set (`result.data || []`); on failure the previous
collection stays in place and the error carried by the response is stored
for display. -/
theorem c8_loadTasks_replace_or_keep (s : HookState) (result : ApiResponse (List Task)) :
    (result.success = true →
      (loadTasks s result).state.tasks = result.data.getD []) ∧
    (result.success = false →
      (loadTasks s result).state.tasks = s.tasks ∧
      (loadTasks s result).state.error = result.error ∧
      (loadTasks s result).state.loading = false) := by
  constructor
  · intro h
    simp [loadTasks, h]
  · intro h
    simp [loadTasks, h]

/-- C8 witness: a concrete successful fetch replaces the collection; a
concrete failed fetch keeps it and records the error. -/
theorem c8_witness :
    (loadTasks sampleState { data := some [sampleTask2], success := true }).state.tasks
      = [sampleTask2] ∧
    (loadTasks sampleState { error := some { message := "network down" }, success := false }).state.tasks
      = sampleState.tasks ∧
    (loadTasks sampleState { error := some { message := "network down" }, success := false }).state.error
      = some { message := "network down" } :=
  ⟨(c8_loadTasks_replace_or_keep sampleState { data := some [sampleTask2], success := true }).1 rfl,
   ((c8_loadTasks_replace_or_keep sampleState { error := some { message := "network down" }, success := false }).2 rfl).1,
   ((c8_loadTasks_replace_or_keep sampleState { error := some { message := "network down" }, success := false }).2 rfl).2.1⟩

/-- C10: undo swaps in the stored `previousState` as the task's whole
record (every field reverts, not only `status`), while the corrective
remote call carries a patch whose only present field is `status`. -/
theorem c10_undo_full_revert_status_only_call (s : HookState) (a : UndoableAction)
    (r : ApiResponse Task)
    (hlast : s.undoStack.getLast? = some a)
    (hid : a.previousState.id = a.taskId)
    (hmem : (findTask s.tasks a.taskId).isSome = true) :
    findTask (undoLastAction s r).state.tasks a.taskId = some a.previousState ∧
    (undoLastAction s r).calls =
      [RemoteCall.updateCall a.taskId
        { title := none, description := none,
          status := some a.previousState.status, priority := none }] := by
  rcases Option.isSome_iff_exists.mp hmem with ⟨t, ht⟩
  constructor
  · simp only [undoLastAction, hlast]
    exact findTask_replace_self a.previousState hid ht
  · simp [undoLastAction, hlast]

/-- C10 witness: undoing the sample move reverts every field of task "1"
to `sampleTask1` and issues a status-only corrective update. -/
theorem c10_witness :
    findTask (undoLastAction sampleMovedState { success := true }).state.tasks "1"
      = some sampleTask1 ∧
    (undoLastAction sampleMovedState { success := true }).calls =
      [RemoteCall.updateCall "1"
        { title := none, description := none,
          status := some TaskStatus.todo, priority := none }] :=
  c10_undo_full_revert_status_only_call sampleMovedState sampleUndoAction
    { success := true } (by decide) (by decide) (by decide)

/-- C6 counterexample: `moveTask` on an id absent from the store does not
propagate a NotFound error — it silently returns (`return; // No change
needed`), so the claim as stated fails for the move operation. -/
theorem c6_counterexample :
    (moveTask sampleState "missing" TaskStatus.done 0 "T1" { success := true }).outcome
      = Except.ok () := by decide

/-- C6 amended: update and delete on an absent id throw "Task not found"
and leave the state untouched with no optimistic apply and no remote
call; move on an absent id is a silent no-op — no error, no state change,
no remote call. -/
theorem c6_amended_notfound_behaviour (s : HookState) (id : String)
    (input : UpdateTaskInput) (st : TaskStatus) (nowMs : Nat) (isoNow : String)
    (rT : ApiResponse Task) (rU : ApiResponse Unit)
    (habs : findTask s.tasks id = none) :
    updateTask s id input nowMs isoNow rT =
      { state := s, outcome := Except.error "Task not found", calls := [] } ∧
    deleteTask s id nowMs rU =
      { state := s, outcome := Except.error "Task not found", calls := [] } ∧
    moveTask s id st nowMs isoNow rT =
      { state := s, outcome := Except.ok (), calls := [] } := by
  refine ⟨?_, ?_, ?_⟩
  · simp [updateTask, habs]
  · simp [deleteTask, habs]
  · simp [moveTask, habs]

/-- C6 witness: the amended behaviour at a concrete absent id. -/
theorem c6_witness :
    updateTask sampleState "missing" { title := some "x" } 0 "T1" { success := true } =
      { state := sampleState, outcome := Except.error "Task not found", calls := [] } ∧
    deleteTask sampleState "missing" 0 { success := true } =
      { state := sampleState, outcome := Except.error "Task not found", calls := [] } ∧
    moveTask sampleState "missing" TaskStatus.done 0 "T1" { success := true } =
      { state := sampleState, outcome := Except.ok (), calls := [] } :=
  c6_amended_notfound_behaviour sampleState "missing" { title := some "x" }
    TaskStatus.done 0 "T1" { success := true } { success := true } (by decide)

theorem mkTempTask_id (input : CreateTaskInput) (userId : String)
    (nowMs : Nat) (isoNow : String) :
    (mkTempTask input userId nowMs isoNow).id = tempId nowMs := rfl

theorem replaceById_singleton_self (x u : Task) (i : String) (hx : x.id = i) :
    replaceById [x] i u = [u] := by
  simp [replaceById, hx]

theorem removeById_singleton_self (x : Task) (i : String) (hx : x.id = i) :
    removeById [x] i = [] := by
  simp [removeById, hx]

/-- The task the server answers with in the update counterexample: same
record, but the server stamps its own `updatedAt` ("T9"). -/
def serverUpdatedTask : Task :=
  { id := "1", userId := "1", title := "b", description := "d",
    status := TaskStatus.todo, priority := TaskPriority.medium,
    createdAt := "T0", updatedAt := "T9" }

/-- C1 counterexample: after a successful update the hook only drops the
optimistic record — the store keeps the locally patched task (client-side
`updatedAt` "T1") and ignores the server-returned record (`updatedAt`
"T9"), so the post-state entry does not equal the server value. -/
theorem c1_counterexample :
    findTask (updateTask sampleState "1" { title := some "b" } 7 "T1"
        { data := some serverUpdatedTask, success := true }).state.tasks "1"
      ≠ some serverUpdatedTask := by decide

/-- C1 amended: after a successful create the temporary task is replaced
by the server-returned task (and, when the ids are fresh, the store is
exactly the old store plus the server task, with no temporary remnant);
after a successful delete the id is absent; in both cases, and after a
successful update, no `OptimisticUpdate` for the id remains — but after a
successful update the store's entry is the locally patched task
(`applyPatch` with the client timestamp), not the server-returned value,
which the code never reads. -/
theorem c1_amended_commit_behaviour (s : HookState) (input : CreateTaskInput)
    (uid : String) (nowMs : Nat) (isoNow : String) (id : String)
    (patch : UpdateTaskInput) (t d : Task)
    (rc ru : ApiResponse Task) (rd : ApiResponse Unit) :
    (rc.success = true → rc.data = some d →
      idFresh s.tasks (tempId nowMs) → idFresh s.tasks d.id →
      (createTask s input uid nowMs isoNow rc).state.tasks = s.tasks ++ [d] ∧
      findTask (createTask s input uid nowMs isoNow rc).state.tasks d.id = some d ∧
      (d.id ≠ tempId nowMs →
        findTask (createTask s input uid nowMs isoNow rc).state.tasks (tempId nowMs) = none) ∧
      (∀ u ∈ (createTask s input uid nowMs isoNow rc).state.optimisticUpdates,
        u.id ≠ tempId nowMs)) ∧
    (ru.success = true → findTask s.tasks id = some t →
      findTask (updateTask s id patch nowMs isoNow ru).state.tasks id
        = some (applyPatch t patch isoNow) ∧
      (∀ u ∈ (updateTask s id patch nowMs isoNow ru).state.optimisticUpdates,
        u.id ≠ id)) ∧
    (rd.success = true → findTask s.tasks id = some t →
      findTask (deleteTask s id nowMs rd).state.tasks id = none ∧
      (∀ u ∈ (deleteTask s id nowMs rd).state.optimisticUpdates,
        u.id ≠ id)) := by
  refine ⟨?_, ?_, ?_⟩
  · intro hs hd hfresh hfreshd
    have htasks : (createTask s input uid nowMs isoNow rc).state.tasks = s.tasks ++ [d] := by
      simp only [createTask, hs, hd]
      rw [mkTempTask_id, replaceById_append, replaceById_fresh d hfresh,
        replaceById_singleton_self _ _ _ (mkTempTask_id input uid nowMs isoNow)]
    refine ⟨htasks, ?_, ?_, ?_⟩
    · rw [htasks, findTask_append, findTask_eq_none_iff.mpr hfreshd]
      simp [findTask_cons]
    · intro hne
      rw [htasks, findTask_append, findTask_eq_none_iff.mpr hfresh]
      simp [findTask_cons, findTask_nil, hne]
    · simp only [createTask, hs, hd]
      exact removeOptById_no_id _ _
  · intro hs ht
    have hid : (applyPatch t patch isoNow).id = id :=
      (applyPatch_id t patch isoNow).trans (findTask_some_id ht)
    constructor
    · simp only [updateTask, ht, hs, if_true]
      exact findTask_replace_self _ hid ht
    · simp only [updateTask, ht, hs, if_true]
      exact removeOptById_no_id _ _
  · intro hs ht
    constructor
    · simp only [deleteTask, ht, hs, if_true]
      exact findTask_remove_self s.tasks id
    · simp only [deleteTask, ht, hs, if_true]
      exact removeOptById_no_id _ _

/-- C1 witness: the amended behaviour at concrete inputs — a create whose
server reply has the fresh id "3", an update of task "1", a delete of
task "2". -/
theorem c1_witness :
    (createTask sampleState { title := "n", description := "nd", priority := TaskPriority.low }
        "1" 4 "T1" { data := some sampleTask3, success := true }).state.tasks
      = sampleState.tasks ++ [sampleTask3] ∧
    findTask (updateTask sampleState "1" { title := some "b" } 7 "T1"
        { data := some serverUpdatedTask, success := true }).state.tasks "1"
      = some (applyPatch sampleTask1 { title := some "b" } "T1") ∧
    findTask (deleteTask sampleState "2" 9 { success := true }).state.tasks "2" = none := by
  refine ⟨?_, ?_, ?_⟩
  · exact ((c1_amended_commit_behaviour sampleState
      { title := "n", description := "nd", priority := TaskPriority.low } "1" 4 "T1"
      "1" { title := some "b" } sampleTask1 sampleTask3
      { data := some sampleTask3, success := true }
      { data := some serverUpdatedTask, success := true }
      { success := true }).1 rfl rfl (findTask_eq_none_iff.mp (by decide))
      (findTask_eq_none_iff.mp (by decide))).1
  · exact ((c1_amended_commit_behaviour sampleState
      { title := "n", description := "nd", priority := TaskPriority.low } "1" 4 "T1"
      "1" { title := some "b" } sampleTask1 sampleTask3
      { data := some sampleTask3, success := true }
      { data := some serverUpdatedTask, success := true }
      { success := true }).2.1 rfl (by decide)).1
  · exact ((c1_amended_commit_behaviour sampleState
      { title := "n", description := "nd", priority := TaskPriority.low } "2" 4 "T1"
      "2" { title := some "b" } sampleTask2 sampleTask3
      { data := some sampleTask3, success := true }
      { data := some serverUpdatedTask, success := true }
      { success := true }).2.2 rfl (by decide)).1

theorem updateTask_fail_frame (s : HookState) {id : String} {patch : UpdateTaskInput}
    {nowMs : Nat} {isoNow : String} {r : ApiResponse Task} {t : Task}
    (ht : findTask s.tasks id = some t) (hr : r.success = false) :
    (∀ j, findTask (updateTask s id patch nowMs isoNow r).state.tasks j = findTask s.tasks j) ∧
    ∀ u ∈ (updateTask s id patch nowMs isoNow r).state.optimisticUpdates, u.id ≠ id := by
  have hid : t.id = id := findTask_some_id ht
  have hpid : (applyPatch t patch isoNow).id = id :=
    (applyPatch_id t patch isoNow).trans hid
  constructor
  · intro j
    simp only [updateTask, ht, hr, Bool.false_eq_true, if_false]
    by_cases hj : j = id
    · subst hj
      rw [findTask_replace_self t hid (findTask_replace_self _ hpid ht), ht]
    · rw [findTask_replace_ne t hid hj, findTask_replace_ne _ hpid hj]
  · simp only [updateTask, ht, hr, Bool.false_eq_true, if_false]
    exact removeOptById_no_id _ _

theorem deleteTask_fail_frame (s : HookState) {id : String}
    {nowMs : Nat} {r : ApiResponse Unit} {t : Task}
    (ht : findTask s.tasks id = some t) (hr : r.success = false) :
    (∀ j, findTask (deleteTask s id nowMs r).state.tasks j = findTask s.tasks j) ∧
    ∀ u ∈ (deleteTask s id nowMs r).state.optimisticUpdates, u.id ≠ id := by
  have hid : t.id = id := findTask_some_id ht
  constructor
  · intro j
    simp only [deleteTask, ht, hr, Bool.false_eq_true, if_false]
    by_cases hj : j = id
    · subst hj
      rw [findTask_append, findTask_remove_self, ht]
      simp [findTask_cons, hid]
    · rw [findTask_append, findTask_remove_ne s.tasks hj]
      cases hfj : findTask s.tasks j with
      | some x => rfl
      | none =>
        have : t.id ≠ j := fun hh => hj (hid.symm.trans hh).symm
        simp [findTask_cons, findTask_nil, this]
  · simp only [deleteTask, ht, hr, Bool.false_eq_true, if_false]
    exact removeOptById_no_id _ _

theorem moveTask_unfold (s : HookState) {id : String} {st : TaskStatus} {t : Task}
    {nowMs : Nat} {isoNow : String} {r : ApiResponse Task}
    (ht : findTask s.tasks id = some t) (hne : t.status ≠ st) :
    moveTask s id st nowMs isoNow r =
      updateTask
        { s with
          undoStack := s.undoStack ++ [mkMoveAction t id st nowMs isoNow]
          undoTimeout := some (id, nowMs + 5000) }
        id { status := some st } nowMs isoNow r := by
  have hbeq : (t.status == st) = false := beq_eq_false_iff_ne.mpr hne
  simp only [moveTask, ht, hbeq, Bool.false_eq_true, if_false]

theorem updateTask_stack_timer (s : HookState) (id : String) (patch : UpdateTaskInput)
    (nowMs : Nat) (isoNow : String) (r : ApiResponse Task) :
    (updateTask s id patch nowMs isoNow r).state.undoStack = s.undoStack ∧
    (updateTask s id patch nowMs isoNow r).state.undoTimeout = s.undoTimeout := by
  unfold updateTask
  cases ht : findTask s.tasks id with
  | none => exact ⟨rfl, rfl⟩
  | some t =>
    by_cases hr : r.success = true
    · simp [hr]
    · have hr' : r.success = false := by
        cases hb : r.success
        · rfl
        · exact absurd hb hr
      simp [hr']

theorem updateTask_success_tasks (s : HookState) {id : String} {patch : UpdateTaskInput}
    {nowMs : Nat} {isoNow : String} {r : ApiResponse Task} {t : Task}
    (ht : findTask s.tasks id = some t) (hr : r.success = true) :
    (updateTask s id patch nowMs isoNow r).state.tasks =
      replaceById s.tasks id (applyPatch t patch isoNow) := by
  simp only [updateTask, ht, hr, if_true]

theorem undoLastAction_ignores_result (s : HookState) (r r' : ApiResponse Task) :
    undoLastAction s r = undoLastAction s r' := by
  unfold undoLastAction
  rfl

/-- C2: for a remote call that fails, every operation rolls back to the
exact pre-mutation snapshot: create removes the temporary task entirely,
update and delete restore the snapshot entry, move (which delegates to
update) does the same, every other id's entry is untouched (no partially
applied state), and no `OptimisticUpdate` for the mutated id remains. -/
theorem c2_rollback_exact (s : HookState) (input : CreateTaskInput)
    (uid : String) (nowMs : Nat) (isoNow : String) (id : String)
    (patch : UpdateTaskInput) (st : TaskStatus) (t : Task)
    (rc ru rm : ApiResponse Task) (rd : ApiResponse Unit)
    (hc : rc.success = false) (hu : ru.success = false)
    (hm : rm.success = false) (hdl : rd.success = false) :
    (idFresh s.tasks (tempId nowMs) →
      (createTask s input uid nowMs isoNow rc).state.tasks = s.tasks ∧
      ∀ u ∈ (createTask s input uid nowMs isoNow rc).state.optimisticUpdates,
        u.id ≠ tempId nowMs) ∧
    (findTask s.tasks id = some t →
      (∀ j, findTask (updateTask s id patch nowMs isoNow ru).state.tasks j
        = findTask s.tasks j) ∧
      ∀ u ∈ (updateTask s id patch nowMs isoNow ru).state.optimisticUpdates,
        u.id ≠ id) ∧
    (findTask s.tasks id = some t →
      (∀ j, findTask (deleteTask s id nowMs rd).state.tasks j
        = findTask s.tasks j) ∧
      ∀ u ∈ (deleteTask s id nowMs rd).state.optimisticUpdates,
        u.id ≠ id) ∧
    (findTask s.tasks id = some t → t.status ≠ st →
      (∀ j, findTask (moveTask s id st nowMs isoNow rm).state.tasks j
        = findTask s.tasks j) ∧
      ∀ u ∈ (moveTask s id st nowMs isoNow rm).state.optimisticUpdates,
        u.id ≠ id) := by
  refine ⟨?_, ?_, ?_, ?_⟩
  · intro hfresh
    constructor
    · simp only [createTask, hc, Bool.false_eq_true]
      rw [mkTempTask_id, removeById_append, removeById_fresh hfresh,
        removeById_singleton_self _ _ (mkTempTask_id input uid nowMs isoNow),
        List.append_nil]
    · simp only [createTask, hc, Bool.false_eq_true]
      exact removeOptById_no_id _ _
  · intro ht
    exact updateTask_fail_frame s ht hu
  · intro ht
    exact deleteTask_fail_frame s ht hdl
  · intro ht hne
    rw [moveTask_unfold s ht hne]
    exact updateTask_fail_frame
      { s with
        undoStack := s.undoStack ++ [mkMoveAction t id st nowMs isoNow]
        undoTimeout := some (id, nowMs + 5000) } ht hm

/-- C2 witness: the rollback behaviour at concrete failing calls on the
sample state. -/
theorem c2_witness :
    (createTask sampleState { title := "n", description := "nd", priority := TaskPriority.low }
        "1" 4 "T1" { error := some { message := "boom" }, success := false }).state.tasks
      = sampleState.tasks ∧
    findTask (updateTask sampleState "1" { title := some "b" } 7 "T1"
        { error := some { message := "boom" }, success := false }).state.tasks "1"
      = findTask sampleState.tasks "1" ∧
    findTask (deleteTask sampleState "1" 7
        { error := some { message := "boom" }, success := false }).state.tasks "1"
      = findTask sampleState.tasks "1" ∧
    findTask (moveTask sampleState "1" TaskStatus.done 7 "T1"
        { error := some { message := "boom" }, success := false }).state.tasks "1"
      = findTask sampleState.tasks "1" := by
  have h := c2_rollback_exact sampleState
    { title := "n", description := "nd", priority := TaskPriority.low }
    "1" 4 "T1" "1" { title := some "b" } TaskStatus.done sampleTask1
    { error := some { message := "boom" }, success := false }
    { error := some { message := "boom" }, success := false }
    { error := some { message := "boom" }, success := false }
    { error := some { message := "boom" }, success := false }
    rfl rfl rfl rfl
  refine ⟨?_, ?_, ?_, ?_⟩
  · exact (h.1 (findTask_eq_none_iff.mp (by decide))).1
  · exact (h.2.1 (by decide)).1 "1"
  · exact (h.2.2.1 (by decide)).1 "1"
  · exact (h.2.2.2 (by decide) (by decide)).1 "1"

theorem undoLastAction_unfold (s : HookState) {a : UndoableAction} (r : ApiResponse Task)
    (hlast : s.undoStack.getLast? = some a) :
    undoLastAction s r =
      { state := { s with
          undoStack := s.undoStack.dropLast
          undoTimeout := none
          tasks := replaceById s.tasks a.taskId a.previousState }
        outcome := Except.ok ()
        calls := [RemoteCall.updateCall a.taskId
          { status := some a.previousState.status }] } := by
  simp only [undoLastAction, hlast]

/-- C4: moving a task from `todo` to `in-progress` and undoing at once
restores the store entry (in particular its status) to the pre-move
snapshot, pops exactly the most recently pushed undo record, issues
exactly one corrective remote update carrying the reverted status `todo`,
and the settlement of that corrective call is never inspected — its
failure triggers no further rollback. -/
theorem c4_move_undo_roundtrip (s : HookState) (id : String) (t : Task)
    (nowMs : Nat) (isoNow : String) (r r' r'' : ApiResponse Task)
    (hfind : findTask s.tasks id = some t)
    (hstatus : t.status = TaskStatus.todo)
    (hsucc : r.success = true) :
    findTask (undoLastAction
        (moveTask s id TaskStatus.inProgress nowMs isoNow r).state r').state.tasks id
      = some t ∧
    (undoLastAction
        (moveTask s id TaskStatus.inProgress nowMs isoNow r).state r').state.undoStack
      = s.undoStack ∧
    (undoLastAction
        (moveTask s id TaskStatus.inProgress nowMs isoNow r).state r').calls
      = [RemoteCall.updateCall id
          { title := none, description := none,
            status := some TaskStatus.todo, priority := none }] ∧
    undoLastAction (moveTask s id TaskStatus.inProgress nowMs isoNow r).state r'
      = undoLastAction (moveTask s id TaskStatus.inProgress nowMs isoNow r).state r'' := by
  have hne : t.status ≠ TaskStatus.inProgress := by rw [hstatus]; decide
  have hid : t.id = id := findTask_some_id hfind
  set A : UndoableAction := mkMoveAction t id TaskStatus.inProgress nowMs isoNow with hA
  set s1 : HookState :=
    { s with undoStack := s.undoStack ++ [A], undoTimeout := some (id, nowMs + 5000) } with hs1
  have hmv : moveTask s id TaskStatus.inProgress nowMs isoNow r
      = updateTask s1 id { status := some TaskStatus.inProgress } nowMs isoNow r := by
    rw [hs1, hA]
    exact @moveTask_unfold s id TaskStatus.inProgress t nowMs isoNow r hfind hne
  have ht1 : findTask s1.tasks id = some t := by rw [hs1]; exact hfind
  have hupd : (updateTask s1 id { status := some TaskStatus.inProgress } nowMs isoNow r).state.tasks
      = replaceById s.tasks id (applyPatch t { status := some TaskStatus.inProgress } isoNow) := by
    rw [updateTask_success_tasks s1 ht1 hsucc, hs1]
  have hstk : (updateTask s1 id { status := some TaskStatus.inProgress } nowMs isoNow r).state.undoStack
      = s.undoStack ++ [A] := by
    rw [(updateTask_stack_timer s1 id { status := some TaskStatus.inProgress } nowMs isoNow r).1, hs1]
  have hlast : (updateTask s1 id { status := some TaskStatus.inProgress } nowMs isoNow r).state.undoStack.getLast?
      = some A := by
    rw [hstk]
    exact List.getLast?_concat _
  rw [hmv, undoLastAction_unfold _ r' hlast, undoLastAction_unfold _ r'' hlast]
  refine ⟨?_, ?_, ?_, rfl⟩
  · show findTask (replaceById
      (updateTask s1 id { status := some TaskStatus.inProgress } nowMs isoNow r).state.tasks
      A.taskId A.previousState) id = some t
    rw [hupd, hA]
    exact findTask_replace_self t hid
      (findTask_replace_self _ ((applyPatch_id t _ isoNow).trans hid) hfind)
  · show (updateTask s1 id { status := some TaskStatus.inProgress } nowMs isoNow r).state.undoStack.dropLast
      = s.undoStack
    rw [hstk, List.dropLast_concat]
  · show [RemoteCall.updateCall A.taskId { status := some A.previousState.status }]
      = [RemoteCall.updateCall id
          { title := none, description := none,
            status := some TaskStatus.todo, priority := none }]
    rw [hA]
    simp only [mkMoveAction, hstatus]

/-- C4 witness: the round trip at a concrete state — task "1" moved from
`todo` to `in-progress` and undone. -/
theorem c4_witness :
    findTask (undoLastAction
        (moveTask sampleState "1" TaskStatus.inProgress 0 "T1" { success := true }).state
        { success := true }).state.tasks "1"
      = some sampleTask1 ∧
    (undoLastAction
        (moveTask sampleState "1" TaskStatus.inProgress 0 "T1" { success := true }).state
        { success := true }).calls
      = [RemoteCall.updateCall "1"
          { title := none, description := none,
            status := some TaskStatus.todo, priority := none }] := by
  have h := c4_move_undo_roundtrip sampleState "1" sampleTask1 0 "T1"
    { success := true } { success := true } { success := false, error := some { message := "x" } }
    (by decide) (by decide) rfl
  exact ⟨h.1, h.2.2.1⟩

/-- C5: a move schedules (after clearing any previously pending one — the
timer slot holds at most one callback) an expiry callback capturing this
move's task id and firing at `now + 5000`; the pushed record sits at the
top of the stack and any superseded records are left in place; firing the
callback prunes exactly the actions with the captured id — so `canUndo`
can no longer be true for that task id — mutates no task entry, and
leaves no callback pending. -/
theorem c5_expiry_window (s : HookState) (id : String) (t : Task) (st : TaskStatus)
    (nowMs : Nat) (isoNow : String) (r : ApiResponse Task)
    (hfind : findTask s.tasks id = some t) (hne : t.status ≠ st) :
    (moveTask s id st nowMs isoNow r).state.undoTimeout = some (id, nowMs + 5000) ∧
    (moveTask s id st nowMs isoNow r).state.undoStack
      = s.undoStack ++ [mkMoveAction t id st nowMs isoNow] ∧
    ((moveTask s id st nowMs isoNow r).state.undoStack.getLast?).map UndoableAction.taskId
      = some id ∧
    (fireUndoExpiry (moveTask s id st nowMs isoNow r).state).tasks
      = (moveTask s id st nowMs isoNow r).state.tasks ∧
    (fireUndoExpiry (moveTask s id st nowMs isoNow r).state).undoStack
      = (moveTask s id st nowMs isoNow r).state.undoStack.filter (fun a => !(a.taskId == id)) ∧
    (∀ a ∈ (fireUndoExpiry (moveTask s id st nowMs isoNow r).state).undoStack,
      a.taskId ≠ id) ∧
    (fireUndoExpiry (moveTask s id st nowMs isoNow r).state).undoTimeout = none := by
  set A : UndoableAction := mkMoveAction t id st nowMs isoNow with hA
  set s1 : HookState :=
    { s with undoStack := s.undoStack ++ [A], undoTimeout := some (id, nowMs + 5000) } with hs1
  have hmv : moveTask s id st nowMs isoNow r
      = updateTask s1 id { status := some st } nowMs isoNow r := by
    rw [hs1, hA]
    exact @moveTask_unfold s id st t nowMs isoNow r hfind hne
  obtain ⟨hstk0, htmr0⟩ := updateTask_stack_timer s1 id { status := some st } nowMs isoNow r
  have htmr : (moveTask s id st nowMs isoNow r).state.undoTimeout = some (id, nowMs + 5000) := by
    rw [hmv, htmr0, hs1]
  have hstk : (moveTask s id st nowMs isoNow r).state.undoStack = s.undoStack ++ [A] := by
    rw [hmv, hstk0, hs1]
  have hfire : fireUndoExpiry (moveTask s id st nowMs isoNow r).state
      = { (moveTask s id st nowMs isoNow r).state with
          undoStack := (moveTask s id st nowMs isoNow r).state.undoStack.filter
            (fun a => !(a.taskId == id))
          undoTimeout := none } := by
    simp only [fireUndoExpiry, htmr]
  refine ⟨htmr, by rw [hstk, hA], ?_, ?_, ?_, ?_, ?_⟩
  · rw [hstk, List.getLast?_concat, hA]
    rfl
  · rw [hfire]
  · rw [hfire]
  · intro a ha
    rw [hfire] at ha
    have := List.of_mem_filter ha
    simpa using this
  · rw [hfire]

/-- C5 witness: the expiry behaviour at a concrete move of task "1" to
`done`. -/
theorem c5_witness :
    (moveTask sampleState "1" TaskStatus.done 0 "T1" { success := true }).state.undoTimeout
      = some ("1", 5000) ∧
    (fireUndoExpiry (moveTask sampleState "1" TaskStatus.done 0 "T1" { success := true }).state).undoStack
      = [] ∧
    (fireUndoExpiry (moveTask sampleState "1" TaskStatus.done 0 "T1" { success := true }).state).tasks
      = (moveTask sampleState "1" TaskStatus.done 0 "T1" { success := true }).state.tasks := by
  have h := c5_expiry_window sampleState "1" sampleTask1 TaskStatus.done 0 "T1"
    { success := true } (by decide) (by decide)
  refine ⟨h.1, ?_, h.2.2.2.1⟩
  rw [h.2.2.2.2.1, h.2.1]
  decide

/-- C9: when the remote update behind a move fails, the rollback restores
the task's previous record, yet the `UndoableAction` pushed by the move
stays on the stack, so `canUndo` remains true. -/
theorem c9_failed_move_keeps_undo (s : HookState) (id : String) (t : Task)
    (st : TaskStatus) (nowMs : Nat) (isoNow : String) (r : ApiResponse Task)
    (hfind : findTask s.tasks id = some t) (hne : t.status ≠ st)
    (hfail : r.success = false) :
    findTask (moveTask s id st nowMs isoNow r).state.tasks id = some t ∧
    (moveTask s id st nowMs isoNow r).state.undoStack
      = s.undoStack ++ [mkMoveAction t id st nowMs isoNow] ∧
    canUndo (moveTask s id st nowMs isoNow r).state = true := by
  set A : UndoableAction := mkMoveAction t id st nowMs isoNow with hA
  set s1 : HookState :=
    { s with undoStack := s.undoStack ++ [A], undoTimeout := some (id, nowMs + 5000) } with hs1
  have hmv : moveTask s id st nowMs isoNow r
      = updateTask s1 id { status := some st } nowMs isoNow r := by
    rw [hs1, hA]
    exact @moveTask_unfold s id st t nowMs isoNow r hfind hne
  have ht1 : findTask s1.tasks id = some t := by rw [hs1]; exact hfind
  have hstk : (moveTask s id st nowMs isoNow r).state.undoStack = s.undoStack ++ [A] := by
    rw [hmv, (updateTask_stack_timer s1 id { status := some st } nowMs isoNow r).1, hs1]
  refine ⟨?_, by rw [hstk, hA], ?_⟩
  · rw [hmv]
    have := (@updateTask_fail_frame s1 id { status := some st } nowMs isoNow r t ht1 hfail).1 id
    rw [this]
    rw [hs1]
    exact hfind
  · rw [canUndo, hstk]
    simp

/-- C9 witness: a concrete failed move of task "1" to `done` rolls the
entry back while the undo record survives. -/
theorem c9_witness :
    findTask (moveTask sampleState "1" TaskStatus.done 0 "T1"
        { error := some { message := "boom" }, success := false }).state.tasks "1"
      = some sampleTask1 ∧
    canUndo (moveTask sampleState "1" TaskStatus.done 0 "T1"
        { error := some { message := "boom" }, success := false }).state = true := by
  have h := c9_failed_move_keeps_undo sampleState "1" sampleTask1 TaskStatus.done 0 "T1"
    { error := some { message := "boom" }, success := false } (by decide) (by decide) rfl
  exact ⟨h.1, h.2.2⟩

/-- Every undo record's snapshot carries the record's own task id
(`moveTask` snapshots exactly the task it found by that id). -/
def UndoConsistent (stack : List UndoableAction) : Prop :=
  ∀ a ∈ stack, a.previousState.id = a.taskId

/-- The store invariant: pairwise-distinct task ids plus undo-stack
consistency (undo swaps `previousState` in under `taskId`, so the two
must agree for distinctness to survive an undo). -/
def GoodState (s : HookState) : Prop :=
  NodupIds s.tasks ∧ UndoConsistent s.undoStack

/-- One user-level hook operation together with the settlement of the
remote call it issues. -/
inductive Op where
  | createOp (input : CreateTaskInput) (userId : String) (nowMs : Nat)
      (isoNow : String) (result : ApiResponse Task)
  | updateOp (id : String) (input : UpdateTaskInput) (nowMs : Nat)
      (isoNow : String) (result : ApiResponse Task)
  | deleteOp (id : String) (nowMs : Nat) (result : ApiResponse Unit)
  | moveOp (id : String) (status : TaskStatus) (nowMs : Nat)
      (isoNow : String) (result : ApiResponse Task)
  | undoOp (corrResult : ApiResponse Task)

/-- Run one operation to settlement and keep the post state. -/
def runOp (s : HookState) : Op → HookState
  | Op.createOp input userId nowMs isoNow result =>
      (createTask s input userId nowMs isoNow result).state
  | Op.updateOp id input nowMs isoNow result =>
      (updateTask s id input nowMs isoNow result).state
  | Op.deleteOp id nowMs result => (deleteTask s id nowMs result).state
  | Op.moveOp id status nowMs isoNow result =>
      (moveTask s id status nowMs isoNow result).state
  | Op.undoOp corrResult => (undoLastAction s corrResult).state

/-- Run a sequence of operations, each settling before the next starts. -/
def runOps (s : HookState) : List Op → HookState
  | [] => s
  | op :: ops => runOps (runOp s op) ops

/-- Environmental freshness for a create issued at state `s`: the
synthesized temporary id and the id of the server-returned task (if any)
are not already taken — the code relies on the wall clock and the backend
for this, exactly as the claim asserts.  Other operations need nothing. -/
def OpOK (s : HookState) : Op → Prop
  | Op.createOp _ _ nowMs _ result =>
      idFresh s.tasks (tempId nowMs) ∧
      (match result.data with
       | some d => idFresh s.tasks d.id
       | none => True)
  | _ => True

/-- `OpOK` holding at every intermediate state of a run. -/
def OkTrace (s : HookState) : List Op → Prop
  | [] => True
  | op :: ops => OpOK s op ∧ OkTrace (runOp s op) ops

theorem createTask_success_tasks (s : HookState) {input : CreateTaskInput}
    {uid : String} {nowMs : Nat} {isoNow : String} {rc : ApiResponse Task} {d : Task}
    (hs : rc.success = true) (hd : rc.data = some d)
    (hfresh : idFresh s.tasks (tempId nowMs)) :
    (createTask s input uid nowMs isoNow rc).state.tasks = s.tasks ++ [d] := by
  simp only [createTask, hs, hd]
  rw [mkTempTask_id, replaceById_append, replaceById_fresh d hfresh,
    replaceById_singleton_self _ _ _ (mkTempTask_id input uid nowMs isoNow)]

theorem createTask_fail_tasks (s : HookState) {input : CreateTaskInput}
    {uid : String} {nowMs : Nat} {isoNow : String} {rc : ApiResponse Task}
    (hs : rc.success = false) (hfresh : idFresh s.tasks (tempId nowMs)) :
    (createTask s input uid nowMs isoNow rc).state.tasks = s.tasks := by
  simp only [createTask, hs, Bool.false_eq_true]
  rw [mkTempTask_id, removeById_append, removeById_fresh hfresh,
    removeById_singleton_self _ _ (mkTempTask_id input uid nowMs isoNow),
    List.append_nil]

theorem createTask_nodata_tasks (s : HookState) {input : CreateTaskInput}
    {uid : String} {nowMs : Nat} {isoNow : String} {rc : ApiResponse Task}
    (hd : rc.data = none) (hfresh : idFresh s.tasks (tempId nowMs)) :
    (createTask s input uid nowMs isoNow rc).state.tasks = s.tasks := by
  cases hs : rc.success
  · exact createTask_fail_tasks s hs hfresh
  · simp only [createTask, hs, hd]
    rw [mkTempTask_id, removeById_append, removeById_fresh hfresh,
      removeById_singleton_self _ _ (mkTempTask_id input uid nowMs isoNow),
      List.append_nil]

theorem createTask_stack (s : HookState) (input : CreateTaskInput) (uid : String)
    (nowMs : Nat) (isoNow : String) (rc : ApiResponse Task) :
    (createTask s input uid nowMs isoNow rc).state.undoStack = s.undoStack := by
  cases hs : rc.success <;> cases hd : rc.data <;> simp [createTask, hs, hd]

theorem deleteTask_stack (s : HookState) (id : String) (nowMs : Nat)
    (rd : ApiResponse Unit) :
    (deleteTask s id nowMs rd).state.undoStack = s.undoStack := by
  cases ht : findTask s.tasks id
  · simp [deleteTask, ht]
  · cases hs : rd.success <;> simp [deleteTask, ht, hs]

theorem createTask_preserves (s : HookState) (input : CreateTaskInput) (uid : String)
    (nowMs : Nat) (isoNow : String) (rc : ApiResponse Task)
    (hg : GoodState s)
    (hok : OpOK s (Op.createOp input uid nowMs isoNow rc)) :
    GoodState (createTask s input uid nowMs isoNow rc).state := by
  obtain ⟨hnd, hus⟩ := hg
  obtain ⟨hfresh, hdata⟩ := hok
  constructor
  · cases hs : rc.success
    · rw [createTask_fail_tasks s hs hfresh]
      exact hnd
    · cases hd : rc.data with
      | none =>
        rw [createTask_nodata_tasks s hd hfresh]
        exact hnd
      | some d =>
        rw [createTask_success_tasks s hs hd hfresh]
        rw [hd] at hdata
        exact nodupIds_append_fresh hnd hdata
  · rw [createTask_stack]
    exact hus

theorem updateTask_preserves (s : HookState) (id : String) (input : UpdateTaskInput)
    (nowMs : Nat) (isoNow : String) (r : ApiResponse Task)
    (hg : GoodState s) :
    GoodState (updateTask s id input nowMs isoNow r).state := by
  obtain ⟨hnd, hus⟩ := hg
  constructor
  · cases ht : findTask s.tasks id with
    | none => simpa [updateTask, ht] using hnd
    | some t =>
      have hid : t.id = id := findTask_some_id ht
      have hpid : (applyPatch t input isoNow).id = id :=
        (applyPatch_id t input isoNow).trans hid
      cases hr : r.success
      · simp only [updateTask, ht, hr, Bool.false_eq_true, if_false]
        exact nodupIds_replace t hid (nodupIds_replace _ hpid hnd)
      · rw [updateTask_success_tasks s ht hr]
        exact nodupIds_replace _ hpid hnd
  · rw [(updateTask_stack_timer s id input nowMs isoNow r).1]
    exact hus

theorem deleteTask_preserves (s : HookState) (id : String) (nowMs : Nat)
    (rd : ApiResponse Unit) (hg : GoodState s) :
    GoodState (deleteTask s id nowMs rd).state := by
  obtain ⟨hnd, hus⟩ := hg
  constructor
  · cases ht : findTask s.tasks id with
    | none => simpa [deleteTask, ht] using hnd
    | some t =>
      have hid : t.id = id := findTask_some_id ht
      cases hr : rd.success
      · simp only [deleteTask, ht, hr, Bool.false_eq_true, if_false]
        exact nodupIds_remove_append hid hnd
      · simp only [deleteTask, ht, hr, if_true]
        exact nodupIds_remove id hnd
  · rw [deleteTask_stack]
    exact hus

theorem moveTask_preserves (s : HookState) (id : String) (st : TaskStatus)
    (nowMs : Nat) (isoNow : String) (r : ApiResponse Task)
    (hg : GoodState s) :
    GoodState (moveTask s id st nowMs isoNow r).state := by
  cases ht : findTask s.tasks id with
  | none => simpa [moveTask, ht] using hg
  | some t =>
    by_cases hbe : t.status = st
    · have hbeq : (t.status == st) = true := beq_iff_eq.mpr hbe
      simpa [moveTask, ht, hbeq] using hg
    · rw [moveTask_unfold s ht hbe]
      refine updateTask_preserves _ id _ nowMs isoNow r ⟨hg.1, ?_⟩
      intro a ha
      rcases List.mem_append.mp ha with h | h
      · exact hg.2 a h
      · rw [List.mem_singleton.mp h]
        show (mkMoveAction t id st nowMs isoNow).previousState.id
          = (mkMoveAction t id st nowMs isoNow).taskId
        show t.id = id
        exact findTask_some_id ht

theorem mem_of_getLast?_eq {α : Type} {l : List α} {a : α}
    (h : l.getLast? = some a) : a ∈ l := by
  induction l with
  | nil => simp at h
  | cons x xs ih =>
    cases xs with
    | nil =>
      simp at h
      rw [h]
      exact List.mem_singleton_self a
    | cons y ys =>
      rw [List.getLast?_cons_cons] at h
      exact List.mem_cons_of_mem x (ih h)

theorem undoLastAction_preserves (s : HookState) (rc : ApiResponse Task)
    (hg : GoodState s) :
    GoodState (undoLastAction s rc).state := by
  obtain ⟨hnd, hus⟩ := hg
  cases hl : s.undoStack.getLast? with
  | none => simpa [undoLastAction, hl] using And.intro hnd hus
  | some a =>
    have hmem : a ∈ s.undoStack := mem_of_getLast?_eq hl
    rw [undoLastAction_unfold s rc hl]
    constructor
    · exact nodupIds_replace a.previousState (hus a hmem) hnd
    · intro b hb
      exact hus b ((List.dropLast_sublist s.undoStack).subset hb)

theorem runOp_preserves (s : HookState) (op : Op)
    (hg : GoodState s) (hok : OpOK s op) : GoodState (runOp s op) := by
  cases op with
  | createOp input uid nowMs isoNow rc => exact createTask_preserves s input uid nowMs isoNow rc hg hok
  | updateOp id input nowMs isoNow r => exact updateTask_preserves s id input nowMs isoNow r hg
  | deleteOp id nowMs rd => exact deleteTask_preserves s id nowMs rd hg
  | moveOp id st nowMs isoNow r => exact moveTask_preserves s id st nowMs isoNow r hg
  | undoOp rc => exact undoLastAction_preserves s rc hg

/-- C3: starting from a state whose task ids are pairwise distinct (with
a consistent undo stack), any sequence of create, update, delete, move
and undo operations — with each create's temporary id and server-assigned
id fresh at the moment it runs, which is exactly the non-collision the
claim asserts — keeps the Task Store free of duplicate ids. -/
theorem c3_no_duplicate_ids (s : HookState) (ops : List Op)
    (hg : GoodState s) (htr : OkTrace s ops) :
    NodupIds (runOps s ops).tasks := by
  induction ops generalizing s with
  | nil => exact hg.1
  | cons op rest ih =>
    obtain ⟨hok, htr'⟩ := htr
    exact ih (runOp s op) (runOp_preserves s op hg hok) htr'

/-- A sample run: a successful move, an undo, a successful create (fresh
temp id "temp-4", fresh server id "3"), and a failed delete. -/
def c3SampleOps : List Op :=
  [Op.moveOp "1" TaskStatus.inProgress 0 "T1" { success := true },
   Op.undoOp { success := true },
   Op.createOp { title := "n", description := "nd", priority := TaskPriority.low }
     "1" 4 "T2" { data := some sampleTask3, success := true },
   Op.deleteOp "2" 9 { error := some { message := "boom" }, success := false }]

/-- C3 witness: the invariant holds along the concrete sample run. -/
theorem c3_witness : NodupIds (runOps sampleState c3SampleOps).tasks := by
  refine c3_no_duplicate_ids sampleState c3SampleOps ⟨?_, ?_⟩ ?_
  · unfold NodupIds
    decide
  · unfold UndoConsistent
    decide
  · simp only [c3SampleOps, OkTrace, OpOK, idFresh, runOp]
    refine ⟨trivial, trivial, ⟨?_, ?_⟩, trivial, trivial⟩ <;> decide

end SprintBoard
